import Mathlib

/-!
# Verification of the portfolio page renderer (`assets/js/script.js`)

This file gives a shallow embedding of the client-side portfolio renderer:
JSON values, the DOM state it mutates, the element resolver with its
selector cache, the HTML escaper with its memoization cache, the data
validator, the five section builders and the page initializer.  Machine
behaviour of JavaScript that the source relies on (truthiness, `ToString`
coercion in template literals, `TypeError` on member access of `null` or
`undefined`, optional chaining) is modelled explicitly.  Exceptions are
modelled with `Except`; an escaping error carries the DOM state at the
point of the throw, since DOM mutations performed before a throw persist.
-/

/-- A JavaScript value as it can appear while rendering: the result of
`JSON.parse` (null, booleans, numbers, strings, arrays, objects) plus
`undefined`, which property access can produce. -/
inductive JsValue where
  | undefined : JsValue
  | null : JsValue
  | bool (b : Bool) : JsValue
  | num (n : Int) : JsValue
  | str (s : String) : JsValue
  | arr (elems : List JsValue) : JsValue
  | obj (fields : List (String × JsValue)) : JsValue

/-- `v` is `null` or `undefined` (member access on it throws a `TypeError`). -/
def JsValue.isNullish : JsValue → Bool
  | .null => true
  | .undefined => true
  | _ => false

/-- `v` is a string (the `typeof text === 'string'` test of `escapeHtml`). -/
def JsValue.isStr : JsValue → Bool
  | .str _ => true
  | _ => false

/-- `v` is an array (`Array.isArray`). -/
def JsValue.isArr : JsValue → Bool
  | .arr _ => true
  | _ => false

/-- JavaScript truthiness for the values JSON can produce: `null`,
`undefined`, `false`, `0` and `""` are falsy; everything else (including
empty arrays and objects) is truthy. -/
def jsTruthy : JsValue → Bool
  | .undefined => false
  | .null => false
  | .bool b => b
  | .num n => n != 0
  | .str s => s != ""
  | .arr _ => true
  | .obj _ => true

/-- First-match lookup in an association list (JS `Map.get`, or reading a
field of an object whose keys are unique). -/
def assocLookup {α β : Type} [DecidableEq α] : List (α × β) → α → Option β
  | [], _ => none
  | (k', v') :: rest, k => if k = k' then some v' else assocLookup rest k

/-- Property read `v[key]` on a value already known not to be nullish:
object fields are looked up (first binding wins, as JS object keys are
unique); named properties of arrays, strings, numbers and booleans used by
this program (`company`, `highlights`, …) are all absent, giving
`undefined`. -/
def jsGetPure (v : JsValue) (key : String) : JsValue :=
  match v with
  | .obj fields => (assocLookup fields key).getD .undefined
  | _ => .undefined

/-- A JavaScript exception, as coarse as the program observes it: it only
ever logs `error.message`, so we keep the kind and, for `Error(msg)`,
the message. -/
inductive JsErr where
  | typeError : JsErr
  | parseError : JsErr
  | jsError (msg : String) : JsErr
deriving DecidableEq

/-- Property read `v[key]`: throws `TypeError` when `v` is `null` or
`undefined`, otherwise reads as `jsGetPure`. -/
def jsGetE (v : JsValue) (key : String) : Except JsErr JsValue :=
  if v.isNullish then .error .typeError else .ok (jsGetPure v key)

/-- Optional-chaining read `v?.key`: `undefined` when `v` is nullish,
otherwise an ordinary (non-throwing) read. -/
def jsGetOpt (v : JsValue) (key : String) : JsValue :=
  if v.isNullish then .undefined else jsGetPure v key

/-- `String.prototype.startsWith`: `p` is a prefix of `s`. -/
def strStartsWith (s p : String) : Bool :=
  p.data.isPrefixOf s.data

/-- `v?.startsWith(p)`: nullish `v` short-circuits to `undefined`, which is
falsy; a string dispatches to `String.prototype.startsWith`; any other
value has no `startsWith` method, so the call throws a `TypeError`. -/
def jsStartsWith (v : JsValue) (p : String) : Except JsErr Bool :=
  match v with
  | .undefined => .ok false
  | .null => .ok false
  | .str s => .ok (strStartsWith s p)
  | _ => .error .typeError

mutual
/-- JavaScript `ToString` as used by template-literal interpolation on
JSON-derived values. -/
def jsToString : JsValue → String
  | .undefined => "undefined"
  | .null => "null"
  | .bool b => if b then "true" else "false"
  | .num n => toString n
  | .str s => s
  | .arr xs => String.intercalate "," (jsToStringList xs)
  | .obj _ => "[object Object]"

/-- `Array.prototype.join(',')` element texts: `null` and `undefined`
elements become the empty string. -/
def jsToStringList : List JsValue → List String
  | [] => []
  | v :: vs => (if v.isNullish then "" else jsToString v) :: jsToStringList vs
end

/-- `v || ''` followed by interpolation: a truthy value is coerced to text,
a falsy one contributes the empty string (the `job.startDate || ''` and
`cert.dateTime || ''` pattern). -/
def jsOrEmpty (v : JsValue) : String :=
  if jsTruthy v then jsToString v else ""

/-! ## The HTML escaper

`escapeHtml` escapes by writing the string into a scratch `div`'s
`textContent` and reading back `innerHTML`.  The HTML fragment
serialization algorithm replaces, in a text node, `&` by `&amp;`,
`<` by `&lt;`, `>` by `&gt;` and U+00A0 by `&nbsp;`; `escapeChar` is that
per-character replacement. -/

/-- Serialization of one character of a text node. -/
def escapeChar (c : Char) : String :=
  if c = '&' then "&amp;"
  else if c = '<' then "&lt;"
  else if c = '>' then "&gt;"
  else if c = '\u00A0' then "&nbsp;"
  else String.singleton c

/-- Serialization of a list of characters. -/
def escChars : List Char → List Char
  | [] => []
  | c :: cs => (escapeChar c).toList ++ escChars cs

/-- The text produced by the scratch-div round trip on a string. -/
def escapeString (s : String) : String := ⟨escChars s.data⟩

/-- `escapeHtml` restricted to its value behaviour: non-strings give the
empty string, strings are escaped.  (The memoized form `escapeHtmlM`
below is proved to return exactly this under its cache invariant.) -/
def escapeHtmlPure (v : JsValue) : String :=
  match v with
  | .str s => escapeString s
  | _ => ""

/-- The memoized `escapeHtml`, with the `escapeCache` map modelled as an
association list in `Map` insertion order.  A non-string returns `''`
without touching the cache; a cached string returns its stored entry; a
new string is escaped, stored and returned.  (The lazily created scratch
`div` has no observable state across calls and is elided.) -/
def escapeHtmlM (cache : List (String × String)) (v : JsValue) :
    String × List (String × String) :=
  match v with
  | .str s =>
    match assocLookup cache s with
    | some e => (e, cache)
    | none => (escapeString s, cache ++ [(s, escapeString s)])
  | _ => ("", cache)

/-- The escape cache only holds correct entries: each key is mapped to its
escaped form. -/
def escWF (cache : List (String × String)) : Bool :=
  cache.all fun p => p.2 == escapeString p.1

/-! ### Markup safety of the escaped output -/

/-- `needle` occurs contiguously somewhere in `hay` (list version). -/
def listContains (needle : List Char) : List Char → Bool
  | [] => needle.isEmpty
  | c :: rest => needle.isPrefixOf (c :: rest) || listContains needle rest

/-- `needle` occurs contiguously inside `hay`. -/
def containsSubstr (hay needle : String) : Bool :=
  listContains needle.data hay.data

/-- `s.toList.isPrefixOf l` for a string `s`. -/
def strIsPrefixOfList (s : String) (l : List Char) : Bool :=
  s.data.isPrefixOf l

/-- Every `&` in the character list begins one of the entities the escaper
emits (`&amp;`, `&lt;`, `&gt;`, `&nbsp;`), i.e. no ampersand is left raw. -/
def ampSafe : List Char → Bool
  | [] => true
  | c :: rest =>
    if c = '&' then
      (strIsPrefixOfList "amp;" rest || strIsPrefixOfList "lt;" rest ||
       strIsPrefixOfList "gt;" rest || strIsPrefixOfList "nbsp;" rest) && ampSafe rest
    else ampSafe rest

/-- No raw `<` or `>` and no raw `&`: the output is markup-safe text. -/
def markupSafe (s : String) : Bool :=
  (s.data.all fun c => !(c == '<' || c == '>')) && ampSafe s.data

theorem escChars_append (l₁ l₂ : List Char) :
    escChars (l₁ ++ l₂) = escChars l₁ ++ escChars l₂ := by
  induction l₁ with
  | nil => simp [escChars]
  | cons c cs ih => simp [escChars, ih]

theorem ampSafe_cons_ne (c : Char) (l : List Char) (h : ¬ c = '&') :
    ampSafe (c :: l) = ampSafe l := by
  simp [ampSafe, h]

theorem noAngle_escChars (cs : List Char) :
    ((escChars cs).all fun c => !(c == '<' || c == '>')) = true := by
  induction cs with
  | nil => simp [escChars]
  | cons c rest ih =>
    simp only [escChars, List.all_append, Bool.and_eq_true, ih, and_true]
    by_cases h1 : c = '&'
    · subst h1; decide
    by_cases h2 : c = '<'
    · subst h2; decide
    by_cases h3 : c = '>'
    · subst h3; decide
    by_cases h4 : c = ' '
    · subst h4; decide
    · simp [escapeChar, h1, h2, h3, h4, String.singleton, String.toList, h2, h3]

theorem ampSafe_escChars (cs : List Char) :
    ampSafe (escChars cs) = true := by
  induction cs with
  | nil => simp [escChars, ampSafe]
  | cons c rest ih =>
    by_cases h1 : c = '&'
    · subst h1
      have hshow : escChars ('&' :: rest) =
          '&' :: 'a' :: 'm' :: 'p' :: ';' :: escChars rest := rfl
      rw [hshow]
      simp [ampSafe, strIsPrefixOfList, List.isPrefixOf, ih]
    by_cases h2 : c = '<'
    · subst h2
      have hshow : escChars ('<' :: rest) =
          '&' :: 'l' :: 't' :: ';' :: escChars rest := rfl
      rw [hshow]
      simp [ampSafe, strIsPrefixOfList, List.isPrefixOf, ih]
    by_cases h3 : c = '>'
    · subst h3
      have hshow : escChars ('>' :: rest) =
          '&' :: 'g' :: 't' :: ';' :: escChars rest := rfl
      rw [hshow]
      simp [ampSafe, strIsPrefixOfList, List.isPrefixOf, ih]
    by_cases h4 : c = ' '
    · subst h4
      have hshow : escChars (' ' :: rest) =
          '&' :: 'n' :: 'b' :: 's' :: 'p' :: ';' :: escChars rest := rfl
      rw [hshow]
      simp [ampSafe, strIsPrefixOfList, List.isPrefixOf, ih]
    · have hshow : escChars (c :: rest) = c :: escChars rest := by
        simp [escChars, escapeChar, h1, h2, h3, h4, String.singleton, String.toList]
      rw [hshow, ampSafe_cons_ne c _ h1]
      exact ih

/-- The escaper's output is markup-safe: no raw `<`, `>`, or `&`. -/
theorem markupSafe_escapeString (s : String) :
    markupSafe (escapeString s) = true := by
  have h : (escapeString s).data = escChars s.data := rfl
  unfold markupSafe
  rw [h, noAngle_escChars, ampSafe_escChars]
  rfl

theorem listContains_of_isPrefixOf (needle l : List Char)
    (h : needle.isPrefixOf l = true) : listContains needle l = true := by
  cases l with
  | nil =>
    cases needle with
    | nil => rfl
    | cons c cs => simp [List.isPrefixOf] at h
  | cons c rest => simp [listContains, h]

theorem listContains_cons (needle : List Char) (c : Char) (l : List Char)
    (h : listContains needle l = true) : listContains needle (c :: l) = true := by
  simp [listContains, h]

theorem listContains_append_left (needle pre l : List Char)
    (h : listContains needle l = true) :
    listContains needle (pre ++ l) = true := by
  induction pre with
  | nil => simpa using h
  | cons c cs ih => exact listContains_cons _ _ _ ih

theorem isPrefixOf_append (needle post : List Char) :
    needle.isPrefixOf (needle ++ post) = true := by
  induction needle with
  | nil => simp [List.isPrefixOf]
  | cons c cs ih => simp [List.isPrefixOf, ih]

/-- If `hay` decomposes as `pre ++ needle ++ post`, then `hay` contains
`needle`. -/
theorem listContains_of_decomp (needle pre post : List Char) :
    listContains needle (pre ++ (needle ++ post)) = true :=
  listContains_append_left _ _ _
    (listContains_of_isPrefixOf _ _ (isPrefixOf_append needle post))



/-! ## The DOM state and the element resolver

The DOM is modelled by what the script observes and mutates: a static
selector table (`document.querySelector` results; the script never adds or
removes elements, only rewrites `innerHTML`), per-node inner markup,
per-node class lists, the body's class list, and the console log.  Nodes
are identified by numbers; a selector that matches no node is absent from
the table. -/

structure Dom where
  resolve : List (String × Nat)
  content : List (Nat × String)
  nodeClasses : List (Nat × List String)
  bodyClasses : List String
  log : List String
deriving DecidableEq

/-- Update or insert a key in an association list, preserving the position
of an existing key and appending a new one (the update order of a JS
`Map.set` and of plain field assignment). -/
def assocSet {α β : Type} [DecidableEq α] : List (α × β) → α → β → List (α × β)
  | [], k, v => [(k, v)]
  | (k', v') :: rest, k, v =>
    if k' = k then (k', v) :: rest else (k', v') :: assocSet rest k v

theorem assocSet_lookup_self {α β : Type} [DecidableEq α]
    (l : List (α × β)) (k : α) (v : β) :
    assocLookup (assocSet l k v) k = some v := by
  induction l with
  | nil => simp [assocSet, assocLookup]
  | cons p rest ih =>
    obtain ⟨k', v'⟩ := p
    by_cases hk : k' = k
    · subst hk
      simp [assocSet, assocLookup]
    · have hk2 : ¬ k = k' := fun h => hk h.symm
      simp [assocSet, hk, assocLookup, hk2, ih]

theorem assocSet_lookup_ne {α β : Type} [DecidableEq α]
    (l : List (α × β)) (k m : α) (v : β) (hne : m ≠ k) :
    assocLookup (assocSet l k v) m = assocLookup l m := by
  induction l with
  | nil => simp [assocSet, assocLookup, hne]
  | cons p rest ih =>
    obtain ⟨k', v'⟩ := p
    by_cases hk : k' = k
    · subst hk
      simp [assocSet, assocLookup, hne, ih]
    · by_cases hm : m = k'
      · subst hm
        simp [assocSet, hk, assocLookup]
      · simp [assocSet, hk, assocLookup, hm, ih]

theorem all_assocSet {α β : Type} [DecidableEq α] (pred : α × β → Bool)
    (l : List (α × β)) (k : α) (v : β)
    (hl : l.all pred = true) (hkv : pred (k, v) = true) :
    (assocSet l k v).all pred = true := by
  induction l with
  | nil => simp [assocSet, hkv]
  | cons p rest ih =>
    obtain ⟨k', v'⟩ := p
    simp only [List.all_cons, Bool.and_eq_true] at hl
    by_cases hk : k' = k
    · subst hk
      simp [assocSet, hkv, hl.2]
    · simp [assocSet, hk, hl.1, ih hl.2]

/-- `document.querySelector(selector)` on the modelled page: the selector
table is static because the script only mutates `innerHTML` and classes. -/
def lookupSel (dom : Dom) (selector : String) : Option Nat :=
  assocLookup dom.resolve selector

/-- The inner markup of node `n` (empty for a node never written and not
given initial content). -/
def contentOf (dom : Dom) (n : Nat) : String :=
  (assocLookup dom.content n).getD ""

/-- `element.innerHTML = s`: one whole-fragment write. -/
def setContent (dom : Dom) (n : Nat) (s : String) : Dom :=
  { dom with content := assocSet dom.content n s }

/-- `element.classList.remove(cls)`. -/
def removeNodeClass (dom : Dom) (n : Nat) (cls : String) : Dom :=
  { dom with nodeClasses := (assocSet dom.nodeClasses n
      (((assocLookup dom.nodeClasses n).getD []).filter (fun c => c ≠ cls))) }

/-- `document.body.classList.add(cls)`: appends the class unless already
present (class lists are sets kept in insertion order). -/
def addBodyClass (dom : Dom) (cls : String) : Dom :=
  if cls ∈ dom.bodyClasses then dom
  else { dom with bodyClasses := dom.bodyClasses ++ [cls] }

/-- A `console.log` / `console.warn` / `console.error` / `console.debug`
entry appended to the log (the console method used and any extra arguments
are not distinguished; the timing figure of the final `console.debug` is
abstracted away). -/
def consoleLog (dom : Dom) (msg : String) : Dom :=
  { dom with log := dom.log ++ [msg] }

/-- `getElement(selector, useCache = true)`: returns the cache entry on a
hit; otherwise queries the DOM and stores the result only when a node was
found and caching is enabled.  The second component is the updated
`domCache`, the third records whether a DOM query was issued.  A selector
matching no node yields `none`; no error is raised. -/
def getElement (dom : Dom) (cache : List (String × Nat)) (selector : String)
    (useCache : Bool) : Option Nat × List (String × Nat) × Bool :=
  if useCache && (assocLookup cache selector).isSome then
    (assocLookup cache selector, cache, false)
  else
    match lookupSel dom selector, useCache with
    | some n, true => (some n, assocSet cache selector n, true)
    | e, _ => (e, cache, true)

/-- The selector cache is well-formed for `dom`: every stored entry is a
node the DOM actually resolves that selector to.  Misses are never stored,
so this is an invariant of `getElement` (proved below). -/
def domCacheWF (dom : Dom) (cache : List (String × Nat)) : Bool :=
  cache.all fun p => lookupSel dom p.1 == some p.2

theorem domCacheWF_lookup (dom : Dom) (cache : List (String × Nat))
    (hwf : domCacheWF dom cache = true) (sel : String) (n : Nat)
    (h : assocLookup cache sel = some n) : lookupSel dom sel = some n := by
  induction cache with
  | nil => simp [assocLookup] at h
  | cons p rest ih =>
    obtain ⟨k', n'⟩ := p
    simp only [domCacheWF, List.all_cons, Bool.and_eq_true, beq_iff_eq] at hwf
    by_cases hk : sel = k'
    · subst hk
      simp [assocLookup] at h
      rw [← h]
      exact hwf.1
    · simp only [assocLookup, if_neg hk] at h
      exact ih (by simp [domCacheWF, hwf.2]) h

/-- Under the cache invariant, `getElement` with caching returns exactly
what a direct DOM query would, and preserves the invariant.  This is the
transparency fact that lets the section builders below be embedded over
the direct query. -/
theorem getElement_wf (dom : Dom) (cache : List (String × Nat))
    (sel : String) (hwf : domCacheWF dom cache = true) :
    (getElement dom cache sel true).1 = lookupSel dom sel ∧
      domCacheWF dom (getElement dom cache sel true).2.1 = true := by
  unfold getElement
  cases hc : assocLookup cache sel with
  | some n =>
    simp only [hc, Option.isSome_some, Bool.true_and, if_true]
    exact ⟨(domCacheWF_lookup dom cache hwf sel n hc).symm, hwf⟩
  | none =>
    simp only [hc, Option.isSome_none, Bool.true_and, Bool.false_eq_true,
      if_false]
    cases hr : lookupSel dom sel with
    | some n =>
      refine ⟨rfl, ?_⟩
      exact all_assocSet _ cache sel n hwf (by simp [hr])
    | none => exact ⟨rfl, hwf⟩

/-! ### Memoized escaping is transparent

The builders call `escapeHtml`, which consults the escape cache.  Under
the cache invariant `escWF` the memoized call returns exactly
`escapeHtmlPure`, so the builders below are embedded over the pure
function; the two lemmas here justify the elision. -/

theorem escWF_lookup (cache : List (String × String))
    (hwf : escWF cache = true) (s e : String)
    (h : assocLookup cache s = some e) : e = escapeString s := by
  induction cache with
  | nil => simp [assocLookup] at h
  | cons p rest ih =>
    obtain ⟨k', e'⟩ := p
    simp only [escWF, List.all_cons, Bool.and_eq_true, beq_iff_eq] at hwf
    by_cases hk : s = k'
    · subst hk
      simp [assocLookup] at h
      rw [← h]
      exact hwf.1
    · simp only [assocLookup, if_neg hk] at h
      exact ih (by simp [escWF, hwf.2]) h

theorem escapeHtmlM_pure (cache : List (String × String)) (v : JsValue)
    (hwf : escWF cache = true) :
    (escapeHtmlM cache v).1 = escapeHtmlPure v := by
  cases v with
  | str s =>
    simp only [escapeHtmlM, escapeHtmlPure]
    cases h : assocLookup cache s with
    | some e =>
      simp only [h]
      exact escWF_lookup cache hwf s e h
    | none => simp only [h]
  | undefined => rfl
  | null => rfl
  | bool b => rfl
  | num n => rfl
  | arr xs => rfl
  | obj fields => rfl

theorem escWF_preserved (cache : List (String × String)) (v : JsValue)
    (hwf : escWF cache = true) :
    escWF (escapeHtmlM cache v).2 = true := by
  cases v with
  | str s =>
    simp only [escapeHtmlM]
    cases h : assocLookup cache s with
    | some e =>
      simp only [h]
      exact hwf
    | none =>
      simp only [h, escWF, List.all_append, Bool.and_eq_true]
      constructor
      · simpa [escWF] using hwf
      · simp
  | undefined => exact hwf
  | null => exact hwf
  | bool b => exact hwf
  | num n => exact hwf
  | arr xs => exact hwf
  | obj fields => exact hwf

/-! ## Section templates

The template literals of the five builders, reproduced with their exact
whitespace.  The separator in the education template is the literal
three-character sequence U+00E2 U+20AC U+201C found in the source (a
mojibake en dash), kept verbatim. -/

/-- `<li>${highlight}</li>` for each item, joined by `''`: the items are
interpolated by `ToString` coercion, with no escaping. -/
def buildHighlights (v : JsValue) : String :=
  match v with
  | .arr items => String.join (items.map (fun h => "<li>" ++ jsToString h ++ "</li>"))
  | _ => ""

/-- The experience entry template. -/
def expTemplate (company title startDate period highlights : String) : String :=
  "\n        <li class=\"experience-position\">\n          <div class=\"experience-header\">\n            <h3 class=\"experience-company\">"
    ++ company
    ++ "</h3>\n            <div class=\"experience-title\">"
    ++ title
    ++ "</div>\n            <time datetime=\""
    ++ startDate
    ++ "\">"
    ++ period
    ++ "</time>\n          </div>\n          <ul class=\"sub-list\">\n            "
    ++ highlights
    ++ "\n          </ul>\n        </li>\n      "

/-- The education entry template. -/
def eduTemplate (name issuer dateTime date : String) : String :=
  "\n      <li>\n        <strong>"
    ++ name
    ++ "</strong> â€“ \n        "
    ++ issuer
    ++ " \n        (<time datetime=\""
    ++ dateTime
    ++ "\">"
    ++ date
    ++ "</time>)\n      </li>\n    "

/-- The skills entry template. -/
def skillTemplate (category skills : String) : String :=
  "\n      <dt>" ++ category ++ "</dt>\n      <dd>" ++ skills ++ "</dd>\n    "

/-- The project entry template. -/
def projTemplate (url linkAttrs name description : String) : String :=
  "\n        <dt>\n          <a href=\""
    ++ url
    ++ "\" "
    ++ linkAttrs
    ++ ">\n            <span class=\"github-prefix\">github.com/</span>"
    ++ name
    ++ "\n          </a>\n        </dt>\n        <dd>"
    ++ description
    ++ "</dd>\n      "

/-! ## Renderers for one record

Each mirrors the body of the corresponding `map` callback.  Property reads
throw on a nullish record (e.g. a `null` entry in the array), which the
builder's `try`/`catch` later absorbs. -/

/-- One experience entry: `buildHighlights(job.highlights)` is computed
first, then the template reads `job.company`, `job.title`,
`job.startDate`, `job.period`. -/
def renderJob (job : JsValue) : Except JsErr String := do
  let highlights := buildHighlights (← jsGetE job "highlights")
  let company ← jsGetE job "company"
  let title ← jsGetE job "title"
  let startDate ← jsGetE job "startDate"
  let period ← jsGetE job "period"
  pure (expTemplate (escapeHtmlPure company) (escapeHtmlPure title)
    (jsOrEmpty startDate) (escapeHtmlPure period) highlights)

/-- `data.experience.map(renderJob).join('')`. -/
def renderJobs (jobs : List JsValue) : Except JsErr String := do
  let entries ← jobs.mapM renderJob
  pure (String.join entries)

/-- One education entry. -/
def renderCert (cert : JsValue) : Except JsErr String := do
  let name ← jsGetE cert "name"
  let issuer ← jsGetE cert "issuer"
  let dateTime ← jsGetE cert "dateTime"
  let date ← jsGetE cert "date"
  pure (eduTemplate (escapeHtmlPure name) (escapeHtmlPure issuer)
    (jsOrEmpty dateTime) (escapeHtmlPure date))

/-- `data.education.map(renderCert).join('')`. -/
def renderCerts (certs : List JsValue) : Except JsErr String := do
  let entries ← certs.mapM renderCert
  pure (String.join entries)

/-- `Object.entries(v)`: an object's own enumerable entries in insertion
order; an array's or string's index/character pairs; no entries for other
primitives (only reached for truthy values, so never for nullish ones). -/
def jsEntries : JsValue → List (String × JsValue)
  | .obj fields => fields
  | .arr xs => xs.enum.map (fun p => (toString p.1, p.2))
  | .str s => s.data.enum.map (fun p => (toString p.1, .str (String.singleton p.2)))
  | _ => []

/-- One skills entry: the category key is a string and is escaped as such;
the value is escaped as a JS value. -/
def renderSkill (p : String × JsValue) : String :=
  skillTemplate (escapeString p.1) (escapeHtmlPure p.2)

/-- One project entry: `project.url?.startsWith('http')` decides the
`target="_blank" rel="noopener"` attributes; the visible label is the
literal `github.com/` span followed by the escaped name. -/
def buildProjectEntry (project : JsValue) : Except JsErr String := do
  let url ← jsGetE project "url"
  let isExternal ← jsStartsWith url "http"
  let linkAttrs := if isExternal then "target=\"_blank\" rel=\"noopener\"" else ""
  let name ← jsGetE project "name"
  let description ← jsGetE project "description"
  pure (projTemplate (escapeHtmlPure url) linkAttrs (escapeHtmlPure name)
    (escapeHtmlPure description))

/-- `data.projects.map(buildProjectEntry).join('')`. -/
def renderProjects (projects : List JsValue) : Except JsErr String := do
  let entries ← projects.mapM buildProjectEntry
  pure (String.join entries)

/-! ## The five section builders

Each builder resolves its container through the Element Resolver and calls
the memoized escaper.  By `getElement_wf` the resolver under a well-formed
cache returns exactly the direct query `lookupSel`, and by
`escapeHtmlM_pure` the memoized escaper returns exactly `escapeHtmlPure`;
the builders are therefore embedded over the direct query and the pure
escaper, with the caches' transparency proved rather than re-threaded.

A builder returns `.error (d, e)` when a JavaScript exception escapes it;
`d` is the DOM state at the throw (all earlier mutations persist). -/

/-- `buildHeaderSummary`: warns and returns when the container is missing
or `data.personal?.summary` is falsy, otherwise assigns the summary (the
source re-reads `data.personal.summary`, which equals the guarded value
since `personal` is non-nullish whenever the guard passes) and removes the
`loading-placeholder` class.  The guard read `data.personal` throws on a
nullish document; there is no `try`/`catch` in this builder. -/
def buildHeaderSummary (dom : Dom) (data : JsValue) : Except (Dom × JsErr) Dom :=
  match lookupSel dom ".header-summary p" with
  | none => .ok (consoleLog dom "Header summary container not found")
  | some c =>
    match jsGetE data "personal" with
    | .error e => .error (dom, e)
    | .ok personal =>
      let summary := jsGetOpt personal "summary"
      if jsTruthy summary then
        .ok (removeNodeClass (setContent dom c (jsToString summary)) c
          "loading-placeholder")
      else
        .ok (consoleLog dom "No summary data available")

/-- `buildExperienceSection`: the guard `!container ||
!Array.isArray(data.experience)` short-circuits, so `data.experience` is
only read (and can only throw) when the container resolved; the guard read
sits outside the `try`.  Inside the `try`, a throw from a record is caught,
logged, and leaves the container untouched. -/
def buildExperienceSection (dom : Dom) (data : JsValue) : Except (Dom × JsErr) Dom :=
  match lookupSel dom ".experience-list" with
  | none => .ok (consoleLog dom "Experience container not found or invalid data")
  | some c =>
    match jsGetE data "experience" with
    | .error e => .error (dom, e)
    | .ok v =>
      match v with
      | .arr jobs =>
        match renderJobs jobs with
        | .error _ => .ok (consoleLog dom "Error building experience section:")
        | .ok html => .ok (setContent dom c html)
      | _ => .ok (consoleLog dom "Experience container not found or invalid data")

/-- `buildEducationSection`, same shape as the experience builder. -/
def buildEducationSection (dom : Dom) (data : JsValue) : Except (Dom × JsErr) Dom :=
  match lookupSel dom ".education-list" with
  | none => .ok (consoleLog dom "Education container not found or invalid data")
  | some c =>
    match jsGetE data "education" with
    | .error e => .error (dom, e)
    | .ok v =>
      match v with
      | .arr certs =>
        match renderCerts certs with
        | .error _ => .ok (consoleLog dom "Error building education section:")
        | .ok html => .ok (setContent dom c html)
      | _ => .ok (consoleLog dom "Education container not found or invalid data")

/-- `buildSkillsSection`: the guard is truthiness of `data.technicalSkills`
rather than an array check; the rendering inside the `try` cannot throw
(`Object.entries` of a truthy value is total), so the `catch` is
unreachable and does not appear. -/
def buildSkillsSection (dom : Dom) (data : JsValue) : Except (Dom × JsErr) Dom :=
  match lookupSel dom ".technical-skills dl" with
  | none => .ok (consoleLog dom "Skills container not found or invalid data")
  | some c =>
    match jsGetE data "technicalSkills" with
    | .error e => .error (dom, e)
    | .ok ts =>
      if jsTruthy ts then
        .ok (setContent dom c (String.join ((jsEntries ts).map renderSkill)))
      else
        .ok (consoleLog dom "Skills container not found or invalid data")

/-- `buildProjectsSection`: a throw from a record (e.g. a non-string,
non-nullish `url`, whose `startsWith` is not a function) is caught inside
the `try`, logged, and leaves the container untouched. -/
def buildProjectsSection (dom : Dom) (data : JsValue) : Except (Dom × JsErr) Dom :=
  match lookupSel dom ".key-projects dl" with
  | none => .ok (consoleLog dom "Projects container not found or invalid data")
  | some c =>
    match jsGetE data "projects" with
    | .error e => .error (dom, e)
    | .ok v =>
      match v with
      | .arr projects =>
        match renderProjects projects with
        | .error _ => .ok (consoleLog dom "Error building projects section:")
        | .ok html => .ok (setContent dom c html)
      | _ => .ok (consoleLog dom "Projects container not found or invalid data")

/-- The five builders in the order the initializer invokes them. -/
def sectionBuilders : List (Dom → JsValue → Except (Dom × JsErr) Dom) :=
  [buildHeaderSummary, buildExperienceSection, buildEducationSection,
   buildSkillsSection, buildProjectsSection]

/-! ## Contact synchronization -/

/-- The header selector for a contact field name. -/
def contactHeaderSel (dataTestName : String) : String :=
  "[data-test-location=\"header\"][data-test-name=\"" ++ dataTestName ++ "\"]"

/-- The sidebar selector for a contact field name. -/
def contactSidebarSel (dataTestName : String) : String :=
  "[data-test-location=\"sidebar\"][data-test-name=\"" ++ dataTestName ++ "\"]"

/-- `syncContactInfo(dataTestName)`: resolve both nodes through the cached
Element Resolver; if both exist, copy the sidebar node's `innerHTML` onto
the header node's `innerHTML` verbatim; otherwise do nothing.  Returns the
new DOM and the updated selector cache. -/
def syncContactInfo (dom : Dom) (cache : List (String × Nat))
    (dataTestName : String) : Dom × List (String × Nat) :=
  let r1 := getElement dom cache (contactHeaderSel dataTestName) true
  let r2 := getElement dom r1.2.1 (contactSidebarSel dataTestName) true
  match r1.1, r2.1 with
  | some hn, some sn => (setContent dom hn (contentOf dom sn), r2.2.1)
  | _, _ => (dom, r2.2.1)

/-! ## Loading, validation and initialization -/

/-- What the single `fetch('data.json')` produced: a parsed body, a
non-2xx transport status, or a body that was not valid JSON. -/
inductive FetchResult where
  | success (body : JsValue) : FetchResult
  | badStatus (status : Nat) : FetchResult
  | badJson : FetchResult

/-- `error.message` of the errors this program can log (the host's exact
`TypeError`/`SyntaxError` texts are abstracted to their names). -/
def errMessage : JsErr → String
  | .typeError => "TypeError"
  | .parseError => "SyntaxError"
  | .jsError m => m

/-- `loadPortfolioData()`: throws `HTTP <status>: Failed to load data.json`
on a non-ok response, a parse error on invalid JSON, otherwise the body. -/
def loadPortfolioData : FetchResult → Except JsErr JsValue
  | .success v => .ok v
  | .badStatus s => .error (.jsError ("HTTP " ++ toString s ++ ": Failed to load data.json"))
  | .badJson => .error .parseError

/-- The five required top-level keys, in the fixed required order. -/
def requiredSections : List String :=
  ["personal", "experience", "education", "technicalSkills", "projects"]

/-- The required keys whose values are missing or falsy, in required
order (`required.filter(section => !data[section])`). -/
def missingOf (data : JsValue) : List String :=
  requiredSections.filter (fun s => !(jsTruthy (jsGetPure data s)))

/-- `validateData(data)`: reading `data[section]` throws a `TypeError` when
the parsed document is `null` (or `undefined`); otherwise the falsy
required keys are collected and, if any, reported comma-joined. -/
def validateData (data : JsValue) : Except JsErr Unit :=
  if data.isNullish then .error .typeError
  else if (missingOf data).isEmpty then .ok ()
  else .error (.jsError ("Missing required sections: "
    ++ String.intercalate ", " (missingOf data)))

/-- The body of the success-path `requestAnimationFrame` callback up to
the class flip: the five builders run in sequence; an uncaught exception
aborts the rest of the callback. -/
def runBuilders (dom : Dom) (data : JsValue) : Except (Dom × JsErr) Dom := do
  let d1 ← buildHeaderSummary dom data
  let d2 ← buildExperienceSection d1 data
  let d3 ← buildEducationSection d2 data
  let d4 ← buildSkillsSection d3 data
  buildProjectsSection d4 data

/-- The whole success-path callback: builders, then
`document.body.classList.add('content-loaded')`, then the timing
`console.debug`.  An exception escaping a builder aborts the callback
before the class flip; the event loop swallows it (it does not reach the
initializer's `catch`, which only wraps the scheduling). -/
def buildAllCallback (dom : Dom) (data : JsValue) : Dom :=
  match runBuilders dom data with
  | .ok d => consoleLog (addBodyClass d "content-loaded") "Portfolio content loaded"
  | .error (d, _) => d

/-- `initPortfolioContent()`, run to completion including its deferred
callback: load, validate, build-all and flip the class, with the `catch`
logging any load/parse/validation error and still flipping the class. -/
def initPortfolioContent (dom : Dom) (fetch : FetchResult) : Dom :=
  match loadPortfolioData fetch with
  | .error e =>
    addBodyClass (consoleLog dom ("Failed to load dynamic content: " ++ errMessage e))
      "content-loaded"
  | .ok data =>
    match validateData data with
    | .error e =>
      addBodyClass (consoleLog dom ("Failed to load dynamic content: " ++ errMessage e))
        "content-loaded"
    | .ok _ => buildAllCallback dom data

/-! ## Shared lemmas about the builders -/

theorem contentOf_setContent_self (dom : Dom) (n : Nat) (s : String) :
    contentOf (setContent dom n s) n = s := by
  simp [contentOf, setContent, assocSet_lookup_self]

theorem contentOf_setContent_ne (dom : Dom) (n m : Nat) (s : String)
    (h : m ≠ n) : contentOf (setContent dom n s) m = contentOf dom m := by
  simp [contentOf, setContent, assocSet_lookup_ne _ _ _ _ h]

theorem buildHeaderSummary_ok (dom : Dom) (data : JsValue)
    (h : data.isNullish = false) :
    ∃ d, buildHeaderSummary dom data = .ok d := by
  have hok : jsGetE data "personal" = .ok (jsGetPure data "personal") := by
    simp [jsGetE, h]
  unfold buildHeaderSummary
  simp only [hok]
  cases hc : lookupSel dom ".header-summary p" with
  | none => exact ⟨_, rfl⟩
  | some c =>
    by_cases hts : jsTruthy (jsGetOpt (jsGetPure data "personal") "summary") = true
    · exact ⟨_, by simp [hts]; rfl⟩
    · exact ⟨_, by simp [hts]; rfl⟩

theorem buildExperienceSection_ok (dom : Dom) (data : JsValue)
    (h : data.isNullish = false) :
    ∃ d, buildExperienceSection dom data = .ok d := by
  have hok : jsGetE data "experience" = .ok (jsGetPure data "experience") := by
    simp [jsGetE, h]
  unfold buildExperienceSection
  simp only [hok]
  cases hc : lookupSel dom ".experience-list" with
  | none => exact ⟨_, rfl⟩
  | some c =>
    cases hv : jsGetPure data "experience" with
    | arr jobs =>
      cases hr : renderJobs jobs with
      | error e => exact ⟨_, by simp [hr]; rfl⟩
      | ok html => exact ⟨_, by simp [hr]; rfl⟩
    | undefined => exact ⟨_, rfl⟩
    | null => exact ⟨_, rfl⟩
    | bool b => exact ⟨_, rfl⟩
    | num n => exact ⟨_, rfl⟩
    | str s => exact ⟨_, rfl⟩
    | obj fields => exact ⟨_, rfl⟩

theorem buildEducationSection_ok (dom : Dom) (data : JsValue)
    (h : data.isNullish = false) :
    ∃ d, buildEducationSection dom data = .ok d := by
  have hok : jsGetE data "education" = .ok (jsGetPure data "education") := by
    simp [jsGetE, h]
  unfold buildEducationSection
  simp only [hok]
  cases hc : lookupSel dom ".education-list" with
  | none => exact ⟨_, rfl⟩
  | some c =>
    cases hv : jsGetPure data "education" with
    | arr certs =>
      cases hr : renderCerts certs with
      | error e => exact ⟨_, by simp [hr]; rfl⟩
      | ok html => exact ⟨_, by simp [hr]; rfl⟩
    | undefined => exact ⟨_, rfl⟩
    | null => exact ⟨_, rfl⟩
    | bool b => exact ⟨_, rfl⟩
    | num n => exact ⟨_, rfl⟩
    | str s => exact ⟨_, rfl⟩
    | obj fields => exact ⟨_, rfl⟩

theorem buildSkillsSection_ok (dom : Dom) (data : JsValue)
    (h : data.isNullish = false) :
    ∃ d, buildSkillsSection dom data = .ok d := by
  have hok : jsGetE data "technicalSkills" = .ok (jsGetPure data "technicalSkills") := by
    simp [jsGetE, h]
  unfold buildSkillsSection
  simp only [hok]
  cases hc : lookupSel dom ".technical-skills dl" with
  | none => exact ⟨_, rfl⟩
  | some c =>
    by_cases hts : jsTruthy (jsGetPure data "technicalSkills") = true
    · exact ⟨_, by simp [hts]; rfl⟩
    · exact ⟨_, by simp [hts]; rfl⟩

theorem buildProjectsSection_ok (dom : Dom) (data : JsValue)
    (h : data.isNullish = false) :
    ∃ d, buildProjectsSection dom data = .ok d := by
  have hok : jsGetE data "projects" = .ok (jsGetPure data "projects") := by
    simp [jsGetE, h]
  unfold buildProjectsSection
  simp only [hok]
  cases hc : lookupSel dom ".key-projects dl" with
  | none => exact ⟨_, rfl⟩
  | some c =>
    cases hv : jsGetPure data "projects" with
    | arr projects =>
      cases hr : renderProjects projects with
      | error e => exact ⟨_, by simp [hr]; rfl⟩
      | ok html => exact ⟨_, by simp [hr]; rfl⟩
    | undefined => exact ⟨_, rfl⟩
    | null => exact ⟨_, rfl⟩
    | bool b => exact ⟨_, rfl⟩
    | num n => exact ⟨_, rfl⟩
    | str s => exact ⟨_, rfl⟩
    | obj fields => exact ⟨_, rfl⟩

theorem runBuilders_ok (dom : Dom) (data : JsValue)
    (h : data.isNullish = false) :
    ∃ d, runBuilders dom data = .ok d := by
  obtain ⟨d1, h1⟩ := buildHeaderSummary_ok dom data h
  obtain ⟨d2, h2⟩ := buildExperienceSection_ok d1 data h
  obtain ⟨d3, h3⟩ := buildEducationSection_ok d2 data h
  obtain ⟨d4, h4⟩ := buildSkillsSection_ok d3 data h
  obtain ⟨d5, h5⟩ := buildProjectsSection_ok d4 data h
  exact ⟨d5, by simp [runBuilders, Bind.bind, Except.bind, h1, h2, h3, h4, h5]⟩

theorem buildHeaderSummary_frame (dom : Dom) (data : JsValue) (d : Dom)
    (hd : buildHeaderSummary dom data = .ok d) :
    d.bodyClasses = dom.bodyClasses := by
  unfold buildHeaderSummary at hd
  split at hd
  · cases hd; rfl
  · split at hd
    · cases hd
    · dsimp only [] at hd
      split at hd
      · cases hd; rfl
      · cases hd; rfl

theorem buildExperienceSection_frame (dom : Dom) (data : JsValue) (d : Dom)
    (hd : buildExperienceSection dom data = .ok d) :
    d.bodyClasses = dom.bodyClasses := by
  unfold buildExperienceSection at hd
  split at hd
  · cases hd; rfl
  · split at hd
    · cases hd
    · split at hd
      · split at hd
        · cases hd; rfl
        · cases hd; rfl
      · cases hd; rfl

theorem buildEducationSection_frame (dom : Dom) (data : JsValue) (d : Dom)
    (hd : buildEducationSection dom data = .ok d) :
    d.bodyClasses = dom.bodyClasses := by
  unfold buildEducationSection at hd
  split at hd
  · cases hd; rfl
  · split at hd
    · cases hd
    · split at hd
      · split at hd
        · cases hd; rfl
        · cases hd; rfl
      · cases hd; rfl

theorem buildSkillsSection_frame (dom : Dom) (data : JsValue) (d : Dom)
    (hd : buildSkillsSection dom data = .ok d) :
    d.bodyClasses = dom.bodyClasses := by
  unfold buildSkillsSection at hd
  split at hd
  · cases hd; rfl
  · split at hd
    · cases hd
    · split at hd
      · cases hd; rfl
      · cases hd; rfl

theorem buildProjectsSection_frame (dom : Dom) (data : JsValue) (d : Dom)
    (hd : buildProjectsSection dom data = .ok d) :
    d.bodyClasses = dom.bodyClasses := by
  unfold buildProjectsSection at hd
  split at hd
  · cases hd; rfl
  · split at hd
    · cases hd
    · split at hd
      · split at hd
        · cases hd; rfl
        · cases hd; rfl
      · cases hd; rfl

theorem runBuilders_frame (dom : Dom) (data : JsValue) (d : Dom)
    (hd : runBuilders dom data = .ok d) :
    d.bodyClasses = dom.bodyClasses := by
  unfold runBuilders at hd
  cases h1 : buildHeaderSummary dom data with
  | error p => rw [h1] at hd; simp [Bind.bind, Except.bind] at hd
  | ok d1 =>
    rw [h1] at hd
    simp only [Bind.bind, Except.bind] at hd
    cases h2 : buildExperienceSection d1 data with
    | error p => rw [h2] at hd; simp at hd
    | ok d2 =>
      rw [h2] at hd
      simp only [] at hd
      cases h3 : buildEducationSection d2 data with
      | error p => rw [h3] at hd; simp at hd
      | ok d3 =>
        rw [h3] at hd
        simp only [] at hd
        cases h4 : buildSkillsSection d3 data with
        | error p => rw [h4] at hd; simp at hd
        | ok d4 =>
          rw [h4] at hd
          simp only [] at hd
          calc d.bodyClasses
              = d4.bodyClasses := buildProjectsSection_frame d4 data d hd
            _ = d3.bodyClasses := buildSkillsSection_frame d3 data d4 h4
            _ = d2.bodyClasses := buildEducationSection_frame d2 data d3 h3
            _ = d1.bodyClasses := buildExperienceSection_frame d1 data d2 h2
            _ = dom.bodyClasses := buildHeaderSummary_frame dom data d1 h1

theorem count_addBodyClass (dom : Dom) (cls : String)
    (h : cls ∉ dom.bodyClasses) :
    ((addBodyClass dom cls).bodyClasses).count cls = 1 := by
  simp [addBodyClass, h, List.count_append, List.count_eq_zero.mpr h]

theorem validateData_ok_not_nullish (data : JsValue)
    (h : validateData data = .ok ()) : data.isNullish = false := by
  by_contra hn
  simp only [Bool.not_eq_false] at hn
  simp [validateData, hn] at h

/-! ## Resolver and escaper facts used by the claims -/

theorem assocLookup_append_of_none {α β : Type} [DecidableEq α]
    (l₁ l₂ : List (α × β)) (k : α) (h : assocLookup l₁ k = none) :
    assocLookup (l₁ ++ l₂) k = assocLookup l₂ k := by
  induction l₁ with
  | nil => simp
  | cons p rest ih =>
    obtain ⟨k', v'⟩ := p
    by_cases hk : k = k'
    · simp [assocLookup, hk] at h
    · simp only [assocLookup, List.cons_append, if_neg hk] at h ⊢
      exact ih h

theorem escapeHtmlM_lookup_snd (cache : List (String × String)) (s : String) :
    assocLookup (escapeHtmlM cache (.str s)).2 s
      = some (escapeHtmlM cache (.str s)).1 := by
  unfold escapeHtmlM
  dsimp only []
  cases hc : assocLookup cache s with
  | some e => exact hc
  | none =>
    dsimp only []
    rw [assocLookup_append_of_none cache _ s hc]
    simp [assocLookup]

theorem escapeHtmlM_idem (cache : List (String × String)) (v : JsValue) :
    escapeHtmlM (escapeHtmlM cache v).2 v =
      ((escapeHtmlM cache v).1, (escapeHtmlM cache v).2) := by
  cases v with
  | str s =>
    have hl := escapeHtmlM_lookup_snd cache s
    show (match assocLookup (escapeHtmlM cache (.str s)).2 s with
      | some e => (e, (escapeHtmlM cache (.str s)).2)
      | none => (escapeString s,
          (escapeHtmlM cache (.str s)).2 ++ [(s, escapeString s)]))
      = ((escapeHtmlM cache (.str s)).1, (escapeHtmlM cache (.str s)).2)
    rw [hl]
  | undefined => rfl
  | null => rfl
  | bool b => rfl
  | num n => rfl
  | arr xs => rfl
  | obj fields => rfl

theorem getElement_hit (dom : Dom) (cache : List (String × Nat)) (sel : String)
    (n : Nat) (h : assocLookup cache sel = some n) :
    getElement dom cache sel true = (some n, cache, false) := by
  unfold getElement
  simp [h]

theorem getElement_missNone (dom : Dom) (cache : List (String × Nat))
    (sel : String) (hc : assocLookup cache sel = none)
    (hr : lookupSel dom sel = none) :
    getElement dom cache sel true = (none, cache, true) := by
  unfold getElement
  simp [hc, hr]

theorem getElement_missFound (dom : Dom) (cache : List (String × Nat))
    (sel : String) (n : Nat) (hc : assocLookup cache sel = none)
    (hr : lookupSel dom sel = some n) :
    getElement dom cache sel true = (some n, assocSet cache sel n, true) := by
  unfold getElement
  simp [hc, hr]

theorem getElement_noCache (dom : Dom) (cache : List (String × Nat))
    (sel : String) :
    getElement dom cache sel false = (lookupSel dom sel, cache, true) := by
  unfold getElement
  cases hr : lookupSel dom sel <;> simp [hr]

theorem syncContactInfo_resolved (dom : Dom) (cache : List (String × Nat))
    (name : String) (hwf : domCacheWF dom cache = true) :
    (syncContactInfo dom cache name).1 =
      (match lookupSel dom (contactHeaderSel name),
             lookupSel dom (contactSidebarSel name) with
       | some hn, some sn => setContent dom hn (contentOf dom sn)
       | _, _ => dom) := by
  have h1 := getElement_wf dom cache (contactHeaderSel name) hwf
  have h2 := getElement_wf dom (getElement dom cache (contactHeaderSel name) true).2.1
    (contactSidebarSel name) h1.2
  unfold syncContactInfo
  dsimp only []
  rw [h1.1, h2.1]
  cases lookupSel dom (contactHeaderSel name) <;>
    cases lookupSel dom (contactSidebarSel name) <;> rfl

/-! ## Concrete fixtures -/

/-- A concrete page with the five section containers (nodes 1–5) holding
loading placeholders. -/
def dom0 : Dom where
  resolve := [(".header-summary p", 1), (".experience-list", 2),
    (".education-list", 3), (".technical-skills dl", 4), (".key-projects dl", 5)]
  content := [(1, "Loading..."), (2, "Loading..."), (3, "Loading..."),
    (4, "Loading..."), (5, "Loading...")]
  nodeClasses := [(1, ["loading-placeholder"])]
  bodyClasses := []
  log := []

/-- The end-to-end example document: well-formed, one experience entry
with company "Acme" and highlights ["Shipped X"]. -/
def docAcme : JsValue :=
  .obj [("personal", .obj [("summary", .str "Hello")]),
    ("experience", .arr [.obj [("company", .str "Acme"),
      ("title", .str "Engineer"), ("period", .str "2020"),
      ("startDate", .str "2020-01"),
      ("highlights", .arr [.str "Shipped X"])]]),
    ("education", .arr []),
    ("technicalSkills", .obj [("Languages", .str "Lean")]),
    ("projects", .arr [])]

/-- A document whose `experience` value is a string, not a list. -/
def docExpString : JsValue :=
  .obj [("personal", .obj [("summary", .str "Hi")]),
    ("experience", .str "oops"), ("education", .arr []),
    ("technicalSkills", .obj []), ("projects", .arr [])]

/-- A document whose experience list holds a `null` record, making the
experience renderer throw inside the builder's `try`. -/
def docBadJob : JsValue := .obj [("experience", .arr [.null])]

/-- A document with only `personal` present. -/
def docOnlyPersonal : JsValue := .obj [("personal", .obj [])]

/-- A page with one contact pair whose sidebar markup holds author
markup. -/
def domContact : Dom where
  resolve := [(contactHeaderSel "contact-email", 10),
    (contactSidebarSel "contact-email", 11)]
  content := [(10, "placeholder"),
    (11, "<a href=\"mailto:me@x.com\">me@x.com</a>")]
  nodeClasses := []
  bodyClasses := []
  log := []

/-- A project whose url starts with `http`. -/
def projHttps : JsValue :=
  .obj [("name", .str "me/repo"), ("url", .str "https://github.com/me/repo"),
    ("description", .str "A project")]

/-- A project whose url is a `mailto:` link. -/
def projMailto : JsValue :=
  .obj [("name", .str "me/repo"), ("url", .str "mailto:me@x.com"),
    ("description", .str "A project")]

/-! ## Claim C5 -/

/-- **C5.** For every input value to the HTML Escaper: a non-string input
yields the empty string (leaving the cache untouched); a string input
yields the escaped form of the input, which is markup-safe (no raw `<`,
`>` or unescaped `&`) and is stored in the cache under the input; and a
repeated call with the same string returns the same cached result with no
further cache change.  The hypothesis is the escape-cache invariant, which
the escaper preserves (last conjunct). -/
theorem c5_escaper_contract (cache : List (String × String)) (v : JsValue)
    (hwf : escWF cache = true) :
    (v.isStr = false → escapeHtmlM cache v = ("", cache)) ∧
    (∀ s, v = .str s →
      (escapeHtmlM cache v).1 = escapeString s ∧
      markupSafe (escapeHtmlM cache v).1 = true ∧
      assocLookup (escapeHtmlM cache v).2 s = some (escapeHtmlM cache v).1) ∧
    escapeHtmlM (escapeHtmlM cache v).2 v =
      ((escapeHtmlM cache v).1, (escapeHtmlM cache v).2) ∧
    escWF (escapeHtmlM cache v).2 = true := by
  refine ⟨?_, ?_, escapeHtmlM_idem cache v, escWF_preserved cache v hwf⟩
  · intro hs
    cases v with
    | str s => simp [JsValue.isStr] at hs
    | undefined => rfl
    | null => rfl
    | bool b => rfl
    | num n => rfl
    | arr xs => rfl
    | obj fields => rfl
  · rintro s rfl
    have h1 : (escapeHtmlM cache (.str s)).1 = escapeString s :=
      escapeHtmlM_pure cache _ hwf
    exact ⟨h1, by rw [h1]; exact markupSafe_escapeString s,
      escapeHtmlM_lookup_snd cache s⟩

/-- Witness for C5: the empty cache and the string `"a<b>&c"`. -/
theorem c5_escaper_contract_witness :
    (escapeHtmlM [] (.str "a<b>&c")).1 = escapeString "a<b>&c" ∧
    markupSafe (escapeHtmlM [] (.str "a<b>&c")).1 = true :=
  ⟨((c5_escaper_contract [] (.str "a<b>&c") rfl).2.1 "a<b>&c" rfl).1,
   ((c5_escaper_contract [] (.str "a<b>&c") rfl).2.1 "a<b>&c" rfl).2.1⟩

/-! ## Claim C8 -/

/-- **C8.** A selector that resolved once with caching enabled is, on the
second call, answered from the cache: the identical node, the unchanged
cache, and no DOM query (third component `false`).  A selector the DOM
does not resolve yields the absence value `none` (the resolver is a total
function — no exception is modelled or needed) and issues a query without
caching anything. -/
theorem c8_resolver_cache_and_absence (dom : Dom) (cache : List (String × Nat))
    (sel : String) :
    (∀ n, (getElement dom cache sel true).1 = some n →
      getElement dom (getElement dom cache sel true).2.1 sel true =
        (some n, (getElement dom cache sel true).2.1, false)) ∧
    (domCacheWF dom cache = true → lookupSel dom sel = none →
      getElement dom cache sel true = (none, cache, true)) := by
  constructor
  · intro n h
    have hsnd : assocLookup (getElement dom cache sel true).2.1 sel = some n := by
      cases hc : assocLookup cache sel with
      | some m =>
        rw [getElement_hit dom cache sel m hc] at h ⊢
        simp at h ⊢
        rw [← h]
        exact hc
      | none =>
        cases hr : lookupSel dom sel with
        | some m =>
          rw [getElement_missFound dom cache sel m hc hr] at h ⊢
          simp at h ⊢
          rw [← h]
          exact assocSet_lookup_self cache sel m
        | none =>
          rw [getElement_missNone dom cache sel hc hr] at h
          simp at h
    exact getElement_hit dom _ sel n hsnd
  · intro hwf hr
    cases hc : assocLookup cache sel with
    | some m =>
      have hl := domCacheWF_lookup dom cache hwf sel m hc
      rw [hr] at hl
      cases hl
    | none => exact getElement_missNone dom cache sel hc hr

/-- Witness for C8 on the concrete page: the second lookup of
`.experience-list` is served from the cache without a query, and a
selector matching nothing yields `none`. -/
theorem c8_resolver_cache_and_absence_witness :
    getElement dom0 (getElement dom0 [] ".experience-list" true).2.1
        ".experience-list" true =
      (some 2, (getElement dom0 [] ".experience-list" true).2.1, false) ∧
    getElement dom0 [] ".missing" true = (none, [], true) :=
  ⟨(c8_resolver_cache_and_absence dom0 [] ".experience-list").1 2 rfl,
   (c8_resolver_cache_and_absence dom0 [] ".missing").2 rfl rfl⟩

/-! ## Claim C10 -/

/-- **C10.** The selector cache never records a miss: when the DOM does
not resolve a selector, `getElement` leaves the cache unchanged (and
reports that it queried), so an immediately repeated lookup queries the
DOM again; and for either value of the caching flag the cache invariant —
every stored entry is a node the DOM resolves its selector to — is
preserved. -/
theorem c10_cache_never_stores_misses (dom : Dom) (cache : List (String × Nat))
    (sel : String) (u : Bool) (hwf : domCacheWF dom cache = true) :
    (lookupSel dom sel = none →
      getElement dom cache sel true = (none, cache, true) ∧
      getElement dom (getElement dom cache sel true).2.1 sel true =
        (none, cache, true)) ∧
    domCacheWF dom (getElement dom cache sel u).2.1 = true := by
  constructor
  · intro hr
    have hc : assocLookup cache sel = none := by
      cases hc : assocLookup cache sel with
      | some m =>
        have hl := domCacheWF_lookup dom cache hwf sel m hc
        rw [hr] at hl
        cases hl
      | none => rfl
    have h1 := getElement_missNone dom cache sel hc hr
    refine ⟨h1, ?_⟩
    rw [h1]
    exact getElement_missNone dom cache sel hc hr
  · cases u with
    | true => exact (getElement_wf dom cache sel hwf).2
    | false =>
      rw [getElement_noCache dom cache sel]
      exact hwf

/-- Witness for C10 at the concrete page and an unmatched selector. -/
theorem c10_cache_never_stores_misses_witness :
    getElement dom0 [] ".missing" true = (none, [], true) ∧
    getElement dom0 (getElement dom0 [] ".missing" true).2.1 ".missing" true =
      (none, [], true) :=
  (c10_cache_never_stores_misses dom0 [] ".missing" true rfl).1 rfl

/-! ## Claim C9 -/

/-- **C9.** For a contact-field name whose header and sidebar nodes both
resolve, the synchronizer copies the sidebar node's inner markup verbatim
(no escaping — string equality of the markup) onto the header node,
touching no other node and neither the log nor the body classes; if
either node is absent it changes nothing. -/
theorem c9_sync_contact_info (dom : Dom) (cache : List (String × Nat))
    (name : String) (hwf : domCacheWF dom cache = true) :
    (∀ hn sn, lookupSel dom (contactHeaderSel name) = some hn →
      lookupSel dom (contactSidebarSel name) = some sn →
      (syncContactInfo dom cache name).1 = setContent dom hn (contentOf dom sn) ∧
      contentOf (syncContactInfo dom cache name).1 hn = contentOf dom sn ∧
      (∀ m, m ≠ hn →
        contentOf (syncContactInfo dom cache name).1 m = contentOf dom m) ∧
      (syncContactInfo dom cache name).1.log = dom.log ∧
      (syncContactInfo dom cache name).1.bodyClasses = dom.bodyClasses) ∧
    ((lookupSel dom (contactHeaderSel name) = none ∨
        lookupSel dom (contactSidebarSel name) = none) →
      (syncContactInfo dom cache name).1 = dom) := by
  have hmain := syncContactInfo_resolved dom cache name hwf
  constructor
  · intro hn sn hh hs
    rw [hh, hs] at hmain
    refine ⟨hmain, ?_, ?_, ?_, ?_⟩
    · rw [hmain]
      exact contentOf_setContent_self dom hn _
    · intro m hm
      rw [hmain]
      exact contentOf_setContent_ne dom hn m _ hm
    · rw [hmain]
      rfl
    · rw [hmain]
      rfl
  · intro hcase
    rcases hcase with hh | hs
    · rw [hh] at hmain
      cases hs2 : lookupSel dom (contactSidebarSel name) with
      | some sn => rw [hs2] at hmain; exact hmain
      | none => rw [hs2] at hmain; exact hmain
    · rw [hs] at hmain
      cases hh2 : lookupSel dom (contactHeaderSel name) with
      | some hn => rw [hh2] at hmain; exact hmain
      | none => rw [hh2] at hmain; exact hmain

/-- Witness for C9: the concrete contact pair; author markup is copied
verbatim onto the header node. -/
theorem c9_sync_contact_info_witness :
    contentOf (syncContactInfo domContact [] "contact-email").1 10 =
      "<a href=\"mailto:me@x.com\">me@x.com</a>" :=
  (((c9_sync_contact_info domContact [] "contact-email" rfl).1 10 11 rfl rfl).2.1).trans
    (by decide)

/-! ## Claim C4 -/

/-- **C4 counterexample.** The `null` document is a parsed JSON document
with all five required keys absent, yet `validateData` fails with a
`TypeError` raised by the member access `data[section]` — not with the
error naming the missing keys that the claim requires. -/
theorem c4_validation_null_counterexample :
    validateData .null = .error .typeError ∧
    missingOf .null = requiredSections ∧
    ((JsErr.typeError == JsErr.jsError ("Missing required sections: "
      ++ String.intercalate ", " (missingOf .null))) = false) :=
  ⟨rfl, rfl, rfl⟩

/-- **C4 (amended).** For every parsed document other than `null` (or
`undefined`): validation succeeds exactly when none of the five required
keys is absent or falsy; otherwise it fails with an error naming exactly
the missing keys, comma-joined, in the fixed required order (the missing
list is precisely the falsy required keys and is an order-preserving
sublist of the required list).  On the `null` document the member access
throws a `TypeError` instead (see the counterexample). -/
theorem c4_validation_names_missing (data : JsValue)
    (h : data.isNullish = false) :
    (validateData data = .ok () ↔ missingOf data = []) ∧
    (missingOf data ≠ [] →
      validateData data = .error (.jsError ("Missing required sections: "
        ++ String.intercalate ", " (missingOf data)))) ∧
    (∀ s, s ∈ missingOf data ↔
      s ∈ requiredSections ∧ jsTruthy (jsGetPure data s) = false) ∧
    (missingOf data).Sublist requiredSections := by
  have hie : missingOf data ≠ [] → (missingOf data).isEmpty = false := by
    intro hne
    cases hm : missingOf data with
    | nil => exact absurd hm hne
    | cons a l => rfl
  refine ⟨?_, ?_, ?_, List.filter_sublist _⟩
  · constructor
    · intro hv
      by_contra hne
      simp [validateData, h, hie hne] at hv
    · intro he
      simp [validateData, h, he]
  · intro hne
    simp [validateData, h, hie hne]
  · intro s
    simp [missingOf, List.mem_filter]

/-- Witness for C4 at the document with only `personal` present: the
error names the other four keys in required order. -/
theorem c4_validation_names_missing_witness :
    validateData docOnlyPersonal = .error (.jsError
      "Missing required sections: experience, education, technicalSkills, projects") :=
  (((c4_validation_names_missing docOnlyPersonal rfl).2.1) (by decide)).trans
    (congrArg (fun m => Except.error (JsErr.jsError m)) (by decide))

/-! ## Claim C7 -/

/-- **C7.** When `.experience-list` resolves but the document's
`experience` value is not a list (on a non-nullish document, which is what
validation lets through), the Experience Builder logs its warning and
returns with the page content — in particular the container's markup —
untouched, and the whole five-builder sequence still completes without an
uncaught exception. -/
theorem c7_experience_nonlist_skip (dom : Dom) (data : JsValue) (c : Nat)
    (hc : lookupSel dom ".experience-list" = some c)
    (hn : data.isNullish = false)
    (hv : (jsGetPure data "experience").isArr = false) :
    buildExperienceSection dom data =
      .ok (consoleLog dom "Experience container not found or invalid data") ∧
    (consoleLog dom "Experience container not found or invalid data").content
      = dom.content ∧
    (∃ d, runBuilders dom data = .ok d) := by
  refine ⟨?_, rfl, runBuilders_ok dom data hn⟩
  have hok : jsGetE data "experience" = .ok (jsGetPure data "experience") := by
    simp [jsGetE, hn]
  unfold buildExperienceSection
  rw [hc]
  simp only [hok]
  cases hvv : jsGetPure data "experience" with
  | arr jobs => rw [hvv] at hv; simp [JsValue.isArr] at hv
  | undefined => rfl
  | null => rfl
  | bool b => rfl
  | num n => rfl
  | str s => rfl
  | obj fields => rfl

/-- Witness for C7 on the concrete page and the document whose
`experience` is the string "oops". -/
theorem c7_experience_nonlist_skip_witness :
    buildExperienceSection dom0 docExpString =
      .ok (consoleLog dom0 "Experience container not found or invalid data") :=
  (c7_experience_nonlist_skip dom0 docExpString 2 rfl rfl rfl).1

/-! ## Claim C2 -/

/-- **C2 counterexample.** On the `null` document, the summary builder's
guard read `data.personal` raises a `TypeError` that no boundary catches:
the exception escapes `buildHeaderSummary` (nothing is logged), the build
sequence aborts before the experience, education, skills and projects
builders run, and the whole callback leaves the page untouched — so an
exception in one builder is neither caught/logged/swallowed nor prevented
from stopping the other four. -/
theorem c2_summary_exception_escapes :
    buildHeaderSummary dom0 .null = .error (dom0, .typeError) ∧
    runBuilders dom0 .null = .error (dom0, .typeError) ∧
    buildAllCallback dom0 .null = dom0 :=
  ⟨rfl, rfl, rfl⟩

/-- **C2 (amended).** On documents that pass validation (non-nullish
data), no exception escapes any of the five builders and the sequence
always completes; and in each of the experience, education and projects
builders — the ones whose rendering can actually throw — an exception
raised while rendering is caught, logged via the builder's error message,
and swallowed with the page state unchanged apart from the log (the
container keeps its prior markup).  The summary builder has no boundary
and every builder's guard read sits outside the `try`, so on a nullish
document an exception escapes and aborts the sequence (see the
counterexample); such documents are rejected by validation before the
builders run. -/
theorem c2_builder_exception_boundaries (dom : Dom) (data : JsValue)
    (h : data.isNullish = false) :
    (∀ b ∈ sectionBuilders, ∃ d, b dom data = .ok d) ∧
    (∃ d, runBuilders dom data = .ok d) ∧
    (∀ c jobs e, lookupSel dom ".experience-list" = some c →
      jsGetPure data "experience" = .arr jobs → renderJobs jobs = .error e →
      buildExperienceSection dom data =
        .ok (consoleLog dom "Error building experience section:")) ∧
    (∀ c certs e, lookupSel dom ".education-list" = some c →
      jsGetPure data "education" = .arr certs → renderCerts certs = .error e →
      buildEducationSection dom data =
        .ok (consoleLog dom "Error building education section:")) ∧
    (∀ c projects e, lookupSel dom ".key-projects dl" = some c →
      jsGetPure data "projects" = .arr projects →
      renderProjects projects = .error e →
      buildProjectsSection dom data =
        .ok (consoleLog dom "Error building projects section:")) := by
  refine ⟨?_, runBuilders_ok dom data h, ?_, ?_, ?_⟩
  · intro b hb
    simp only [sectionBuilders, List.mem_cons, List.not_mem_nil, or_false] at hb
    rcases hb with rfl | rfl | rfl | rfl | rfl
    · exact buildHeaderSummary_ok dom data h
    · exact buildExperienceSection_ok dom data h
    · exact buildEducationSection_ok dom data h
    · exact buildSkillsSection_ok dom data h
    · exact buildProjectsSection_ok dom data h
  · intro c jobs e hc hv hr
    have hok : jsGetE data "experience" = .ok (jsGetPure data "experience") := by
      simp [jsGetE, h]
    unfold buildExperienceSection
    rw [hc]
    simp only [hok, hv, hr]
  · intro c certs e hc hv hr
    have hok : jsGetE data "education" = .ok (jsGetPure data "education") := by
      simp [jsGetE, h]
    unfold buildEducationSection
    rw [hc]
    simp only [hok, hv, hr]
  · intro c projects e hc hv hr
    have hok : jsGetE data "projects" = .ok (jsGetPure data "projects") := by
      simp [jsGetE, h]
    unfold buildProjectsSection
    rw [hc]
    simp only [hok, hv, hr]

/-- Witness for C2: on the document whose experience list holds a `null`
record, the experience builder catches the renderer's `TypeError`, logs
it, and leaves the page untouched apart from the log entry. -/
theorem c2_builder_exception_boundaries_witness :
    buildExperienceSection dom0 docBadJob =
      .ok (consoleLog dom0 "Error building experience section:") :=
  (c2_builder_exception_boundaries dom0 docBadJob rfl).2.2.1 2 [.null]
    .typeError rfl rfl rfl

/-! ## Claim C3 -/

/-- **C3.** For every page state on which the class is not yet set and
every outcome of the fetch, running the initializer to completion —
including its deferred build callback — leaves `content-loaded` on the
body exactly once: the success path adds it after the five builders, and
the failure path (bad status, parse failure, validation failure including
the `TypeError` on a `null` document) adds it in the `catch`. -/
theorem c3_content_loaded_exactly_once (dom : Dom) (fetch : FetchResult)
    (h : "content-loaded" ∉ dom.bodyClasses) :
    ((initPortfolioContent dom fetch).bodyClasses).count "content-loaded" = 1 := by
  unfold initPortfolioContent
  cases fetch with
  | badStatus s => exact count_addBodyClass _ _ h
  | badJson => exact count_addBodyClass _ _ h
  | success body =>
    simp only [loadPortfolioData]
    cases hv : validateData body with
    | error e => exact count_addBodyClass _ _ h
    | ok u =>
      cases u
      have hnn := validateData_ok_not_nullish body hv
      obtain ⟨d, hd⟩ := runBuilders_ok dom body hnn
      have hbc := runBuilders_frame dom body d hd
      unfold buildAllCallback
      rw [hd]
      exact count_addBodyClass d _ (by rw [hbc]; exact h)

/-- Witness for C3 on the concrete page, on a successful fetch of the
well-formed example document. -/
theorem c3_content_loaded_exactly_once_witness :
    ((initPortfolioContent dom0 (.success docAcme)).bodyClasses).count
      "content-loaded" = 1 :=
  c3_content_loaded_exactly_once dom0 (.success docAcme) (by decide)

/-! ## String decomposition facts for the template claims -/

theorem strData_append (s t : String) : (s ++ t).data = s.data ++ t.data := by
  cases s
  cases t
  rfl

theorem strAppend_assoc (s t u : String) : (s ++ t) ++ u = s ++ (t ++ u) := by
  cases s with
  | mk a =>
    cases t with
    | mk b =>
      cases u with
      | mk c => exact congrArg String.mk (List.append_assoc a b c)

/-- A string that decomposes as `a ++ (needle ++ b)` contains `needle`. -/
theorem containsSubstr_decomp (a b needle : String) :
    containsSubstr (a ++ (needle ++ b)) needle = true := by
  unfold containsSubstr
  rw [strData_append, strData_append]
  exact listContains_of_decomp needle.data a.data b.data

/-- Whatever the url (hence its escaped form), attrs, name and description
are, the rendered project entry shows the literal `github.com/` span
before the name. -/
theorem projTemplate_contains_span (a b c e : String) :
    containsSubstr (projTemplate a b c e)
      "<span class=\"github-prefix\">github.com/</span>" = true := by
  have hfuse : (">\n            " : String)
      ++ "<span class=\"github-prefix\">github.com/</span>"
      = ">\n            <span class=\"github-prefix\">github.com/</span>" := by
    decide
  have hsplit : projTemplate a b c e =
      ("\n        <dt>\n          <a href=\"" ++ a ++ ("\" " ++ b
        ++ ">\n            "))
      ++ ("<span class=\"github-prefix\">github.com/</span>"
        ++ (c ++ ("\n          </a>\n        </dt>\n        <dd>" ++ e
          ++ "</dd>\n      "))) := by
    unfold projTemplate
    rw [← hfuse]
    simp only [strAppend_assoc]
  rw [hsplit]
  exact containsSubstr_decomp _ _ _

/-! ## Claim C6 -/

set_option maxRecDepth 10000 in
/-- **C6.** For every project record with string fields: the rendered
entry is the template applied to the escaped url, the attribute text that
is `target="_blank" rel="noopener"` exactly when the url starts with
`http` and empty otherwise, the literal `github.com/` span prefixing the
escaped name, and the escaped description; the span appears regardless of
the url's actual host; at the claim's examples, the `https://github.com`
url gets the attributes and the `mailto:` url does not. -/
theorem c6_project_link_attrs (u n d : String) :
    (buildProjectEntry (.obj [("name", .str n), ("url", .str u),
        ("description", .str d)]) =
      .ok (projTemplate (escapeString u)
        (if strStartsWith u "http" then "target=\"_blank\" rel=\"noopener\"" else "")
        (escapeString n) (escapeString d))) ∧
    (∀ a b c e, containsSubstr (projTemplate a b c e)
      "<span class=\"github-prefix\">github.com/</span>" = true) ∧
    (∃ entry, buildProjectEntry projHttps = .ok entry ∧
      containsSubstr entry "target=\"_blank\" rel=\"noopener\"" = true) ∧
    (∃ entry, buildProjectEntry projMailto = .ok entry ∧
      containsSubstr entry "target=\"_blank\" rel=\"noopener\"" = false) := by
  refine ⟨rfl, projTemplate_contains_span, ⟨_, rfl, by decide⟩, ⟨_, rfl, by decide⟩⟩

/-! ## Claim C1 -/

/-- **C1 counterexample.** A highlight containing markup is interpolated
raw by `buildHighlights` — no call to the HTML Escaper happens — so the
produced `<li>` differs from the one built from the escaped item. -/
theorem c1_highlights_unescaped_counterexample :
    buildHighlights (.arr [.str "<b>"]) = "<li><b></li>" ∧
    "<li>" ++ escapeString "<b>" ++ "</li>" = "<li>&lt;b&gt;</li>" ∧
    ((buildHighlights (.arr [.str "<b>"]) ==
      "<li>" ++ escapeString "<b>" ++ "</li>") = false) := by
  refine ⟨by decide, by decide, by decide⟩

set_option maxRecDepth 10000 in
/-- **C1 (amended).** Each highlight item is interpolated verbatim
(string-coerced, not escaped) into its `<li>`; because the example's
texts contain no markup-significant characters, the end-to-end example
still renders as described: on the well-formed one-entry document the
experience container is set to exactly one entry whose markup contains the
`<h3>` with escaped "Acme" (here equal to "Acme") and a `sub-list`
`<ul>` containing `<li>Shipped X</li>`. -/
theorem c1_highlights_verbatim_and_acme_example (s : String) :
    buildHighlights (.arr [.str s]) = "<li>" ++ s ++ "</li>" ∧
    escapeString "Acme" = "Acme" ∧
    (∃ entry, buildExperienceSection dom0 docAcme = .ok (setContent dom0 2 entry) ∧
      containsSubstr entry "<h3 class=\"experience-company\">Acme</h3>" = true ∧
      containsSubstr entry "<li>Shipped X</li>" = true ∧
      containsSubstr entry "<ul class=\"sub-list\">" = true) := by
  refine ⟨rfl, by decide, ⟨_, rfl, by decide, by decide, by decide⟩⟩
